import Mathlib

/-!
Shallow embedding of `luftdaten/__init__.py` (classes `Luftdaten` and
`LuftdatenPush`).  JSON payloads are modelled by an inductive value type,
the relevant Python semantics (subscripting, iteration, truthiness,
`float()`, dict key equality) by explicit functions, and the two
`async` methods by pure functions from the instance state and the
outcome of the single HTTP round trip to the new state and the raised
error (if any).
-/

/-- Model of a parsed JSON value (the result of `response.json()`).
Numbers are modelled by `Rat`; an `obj` is a parsed Python dict, so its
keys are pairwise distinct. -/
inductive JsonVal where
  | null
  | bool (b : Bool)
  | num (q : Rat)
  | str (s : String)
  | arr (xs : List JsonVal)
  | obj (fields : List (String × JsonVal))

/-- The Python exceptions that the code under scrutiny can raise while
manipulating a parsed response. -/
inductive PyExc where
  | typeError
  | keyError
  | valueError
  | indexError
deriving DecidableEq

/-- Modelled from the spec: the two library error kinds declared in the
`luftdaten.exceptions` module (not under `src/`): the generic
`LuftdatenError` and `LuftdatenConnectionError`.  `uncaught e` records a
plain Python exception that escapes the method because no `except`
clause matches it. -/
inductive LuftResult where
  | success
  | luftdatenError
  | luftdatenConnectionError
  | uncaught (exc : PyExc)
deriving DecidableEq

/-- Python subscripting `v[k]` with a string key, as used by `get_data`:
dict lookup returns the value or raises `KeyError`; every other JSON value
raises `TypeError` when indexed by a string. -/
def pySubscript (v : JsonVal) (k : String) : Except PyExc JsonVal :=
  match v with
  | .obj fields =>
    match fields.find? (fun p => p.1 == k) with
    | some p => .ok p.2
    | none => .error .keyError
  | _ => .error .typeError

/-- Python iteration over a value: lists yield their elements, strings
their one-character strings, dicts their keys; `None`, booleans and
numbers are not iterable (`TypeError`). -/
def pyIter : JsonVal → Except PyExc (List JsonVal)
  | .arr xs => .ok xs
  | .str s => .ok (s.data.map (fun c => .str (String.mk [c])))
  | .obj fields => .ok (fields.map (fun p => .str p.1))
  | .null => .error .typeError
  | .bool _ => .error .typeError
  | .num _ => .error .typeError

/-- Python truthiness of a parsed JSON value (`if not self.data`). -/
def pyTruthy : JsonVal → Bool
  | .null => false
  | .bool b => b
  | .num q => !(q == 0)
  | .str s => !(s == "")
  | .arr [] => false
  | .arr (_ :: _) => true
  | .obj [] => false
  | .obj (_ :: _) => true

/-- Characters stripped by `float()` around a numeric string literal. -/
def isPySpace (c : Char) : Bool :=
  c == ' ' || c == '\t' || c == '\n' || c == '\r'

/-- Strip leading and trailing whitespace from a character list. -/
def trimChars (l : List Char) : List Char :=
  ((l.dropWhile isPySpace).reverse.dropWhile isPySpace).reverse

/-- Numeric value of a digit string. -/
def digitsVal (l : List Char) : Nat :=
  l.foldl (fun acc c => acc * 10 + (c.toNat - 48)) 0

/-- Split a character list at the first dot, keeping the rest. -/
def splitOnDot : List Char → List Char × Option (List Char)
  | [] => ([], none)
  | c :: rest =>
    if c == '.' then ([], some rest)
    else
      let p := splitOnDot rest
      (c :: p.1, p.2)

/-- Model of CPython `float()` applied to a string, for plain decimal
literals: optional sign, digits with at most one dot, surrounding
whitespace allowed.  Returns `none` exactly when `float()` raises
`ValueError` (scientific notation and `inf`/`nan`, which the API does
not emit, are not modelled). -/
def parsePyFloat (s : String) : Option Rat :=
  let l := trimChars s.data
  let sl : Rat × List Char :=
    match l with
    | '-' :: rest => (-1, rest)
    | '+' :: rest => (1, rest)
    | _ => (1, l)
  let parts := splitOnDot sl.2
  match parts.2 with
  | none =>
    if parts.1 ≠ [] ∧ parts.1.all Char.isDigit then
      some (sl.1 * (digitsVal parts.1 : Rat))
    else none
  | some frac =>
    if frac.all (fun c => !(c == '.')) ∧ (parts.1 ≠ [] ∨ frac ≠ []) ∧
        parts.1.all Char.isDigit ∧ frac.all Char.isDigit then
      some (sl.1 * ((digitsVal parts.1 : Rat) +
        (digitsVal frac : Rat) / ((10 : Rat) ^ frac.length)))
    else none

/-- Python `float(v)` on a parsed JSON value: numbers and booleans
convert, numeric strings parse (`ValueError` otherwise), and `None`,
lists and dicts raise `TypeError`. -/
def pyFloat : JsonVal → Except PyExc Rat
  | .num q => .ok q
  | .bool b => .ok (if b then 1 else 0)
  | .str s =>
    match parsePyFloat s with
    | some q => .ok q
    | none => .error .valueError
  | .null => .error .typeError
  | .arr _ => .error .typeError
  | .obj _ => .error .typeError

/-- Canonical form of a Python dict key: booleans hash and compare equal
to the numbers `1`/`0`; lists and dicts are unhashable (`none`). -/
def canonKey : JsonVal → Option JsonVal
  | .null => some .null
  | .bool b => some (.num (if b then 1 else 0))
  | .num q => some (.num q)
  | .str s => some (.str s)
  | .arr _ => none
  | .obj _ => none

/-- Structural equality on canonical key forms. -/
def keyBeq : JsonVal → JsonVal → Bool
  | .null, .null => true
  | .num a, .num b => a == b
  | .str a, .str b => a == b
  | _, _ => false

/-- Python `==` between two dict keys (hashable values). -/
def pyKeyEq (a b : JsonVal) : Bool :=
  match canonKey a, canonKey b with
  | some x, some y => keyBeq x y
  | _, _ => false

/-- A value usable as a Python dict key. -/
def hashable : JsonVal → Bool
  | .arr _ => false
  | .obj _ => false
  | _ => true

/-- The `self.values` dict: measurement key to `None` or a float, in
insertion order. -/
abbrev PyDict := List (JsonVal × Option Rat)

/-- First binding whose key compares `==` to `k`. -/
def dictFind : PyDict → JsonVal → Option (JsonVal × Option Rat)
  | [], _ => none
  | p :: rest, k => if pyKeyEq p.1 k then some p else dictFind rest k

/-- Python `k in d.keys()`. -/
def dictContains (d : PyDict) (k : JsonVal) : Bool :=
  (dictFind d k).isSome

/-- Python `d[k]` as an `Option` (`none` when the key is absent). -/
def dictLookup (d : PyDict) (k : JsonVal) : Option (Option Rat) :=
  match dictFind d k with
  | some p => some p.2
  | none => none

/-- Python `d[k] = v`: overwrite the binding in place when the key is
present, append it otherwise. -/
def dictSet : PyDict → JsonVal → Option Rat → PyDict
  | [], k, v => [(k, v)]
  | p :: rest, k, v =>
    if pyKeyEq p.1 k then (p.1, v) :: rest else p :: dictSet rest k v

/-- Map a fallible function over a list left to right, stopping at the
first raised exception (CPython builds sort keys this way). -/
def mapExcept {α β : Type} (f : α → Except PyExc β) : List α → Except PyExc (List β)
  | [] => .ok []
  | x :: xs =>
    match f x with
    | .error e => .error e
    | .ok y =>
      match mapExcept f xs with
      | .error e => .error e
      | .ok ys => .ok (y :: ys)

/-- Apply a partial function to every element, `none` if any fails. -/
def allSome {α β : Type} (f : α → Option β) : List α → Option (List β)
  | [] => some []
  | x :: xs =>
    match f x, allSome f xs with
    | some y, some ys => some (y :: ys)
    | _, _ => none

/-- A sort key usable as a string (timestamps in practice). -/
def asStrKey : JsonVal → Option String
  | .str s => some s
  | _ => none

/-- A sort key usable as a number (booleans coerce). -/
def asNumKey : JsonVal → Option Rat
  | .num q => some q
  | .bool b => some (if b then 1 else 0)
  | _ => none

/-- First element attaining the maximal key: the head of a stable
descending sort by the second component. -/
def firstMaxBy {α β : Type} [LinearOrder β] (b : α × β) : List (α × β) → α × β
  | [] => b
  | y :: ys => firstMaxBy (if b.2 < y.2 then y else b) ys

/-- Model of `sorted(self.data, key=lambda t: t['timestamp'],
reverse=True)[0]`: extract every record's timestamp (left to right, any
exception propagating), then take the head of the stable descending
sort.  A single record needs no comparison; two or more records need
comparable keys of one kind (all strings, or all numbers/booleans),
otherwise CPython's sort raises `TypeError`. -/
def selectRecord (xs : List JsonVal) : Except PyExc JsonVal :=
  match mapExcept (fun r => pySubscript r ("timestamp")) xs with
  | .error e => .error e
  | .ok ks =>
    match xs, ks with
    | [], _ => .error .indexError
    | [r], _ => .ok r
    | x :: x2 :: rest, k :: ks' =>
      match allSome asStrKey (k :: ks') with
      | some (s :: ss) => .ok (firstMaxBy (x, s) ((x2 :: rest).zip ss)).1
      | some [] => .error .typeError
      | none =>
        match allSome asNumKey (k :: ks') with
        | some (n :: ns) => .ok (firstMaxBy (x, n) ((x2 :: rest).zip ns)).1
        | some [] => .error .typeError
        | none => .error .typeError
    | _ :: _ :: _, [] => .error .typeError

/-- One iteration of the loop over `sensor_data['sensordatavalues']`:
look up `entry['value_type']`, register it under a `None` default when
new (a list or dict key raises `TypeError` at the membership test), then
assign `float(entry['value'])` to the matching key.  The dict produced
so far is kept even when an exception is raised. -/
def processEntry (vals : PyDict) (e : JsonVal) : PyDict × Option PyExc :=
  match pySubscript e ("value_type") with
  | .error exc => (vals, some exc)
  | .ok vt =>
    if hashable vt then
      let vals1 := if dictContains vals vt then vals else dictSet vals vt none
      match pySubscript e ("value") with
      | .error exc => (vals1, some exc)
      | .ok v =>
        match pyFloat v with
        | .error exc => (vals1, some exc)
        | .ok q => (dictSet vals1 vt (some q), none)
    else (vals, some .typeError)

/-- The full `for entry in sensor_data['sensordatavalues']` loop, with
the partial dict retained when an iteration raises. -/
def processEntries : PyDict → List JsonVal → PyDict × Option PyExc
  | vals, [] => (vals, none)
  | vals, e :: rest =>
    match processEntry vals e with
    | (vals1, some exc) => (vals1, some exc)
    | (vals1, none) => processEntries vals1 rest

/-- The `self.meta` dict; only the three keys the code ever writes. -/
structure Meta where
  sensor_id : Option Int := none
  longitude : Option Rat := none
  latitude : Option Rat := none

/-- Instance state of the `Luftdaten` reader class. -/
structure Luftdaten where
  sensor_id : Int
  data : Option JsonVal := none
  values : PyDict := []
  meta : Meta := {}

/-- `Luftdaten.__init__`: empty `values` and `meta`, `data = None`. -/
def Luftdaten.init (sid : Int) : Luftdaten :=
  { sensor_id := sid }

/-- `float(sensor_data['location'][field])`. -/
def locField (r : JsonVal) (field : String) : Except PyExc Rat :=
  match pySubscript r ("location") with
  | .error e => .error e
  | .ok loc =>
    match pySubscript loc field with
    | .error e => .error e
    | .ok v => pyFloat v

/-- The three `self.meta[...] = ...` assignments, in source order:
`sensor_id` first, then longitude, then latitude, each retained even
when a later right-hand side raises. -/
def metaPhase (s : Luftdaten) (r : JsonVal) : Luftdaten × Option PyExc :=
  let s1 := { s with meta := { s.meta with sensor_id := some s.sensor_id } }
  match locField r ("longitude") with
  | .error e => (s1, some e)
  | .ok lon =>
    let s2 := { s1 with meta := { s1.meta with longitude := some lon } }
    match locField r ("latitude") with
    | .error e => (s2, some e)
    | .ok lat => ({ s2 with meta := { s2.meta with latitude := some lat } }, none)

/-- Body of the second `try` block of `get_data` (record selection,
value extraction, metadata), returning the mutated state together with
the Python exception that escaped it, if any. -/
def extractPhase (s : Luftdaten) (body : JsonVal) : Luftdaten × Option PyExc :=
  match pyIter body with
  | .error e => (s, some e)
  | .ok xs =>
    match selectRecord xs with
    | .error e => (s, some e)
    | .ok r =>
      match pySubscript r ("sensordatavalues") with
      | .error e => (s, some e)
      | .ok sdv =>
        match pyIter sdv with
        | .error e => (s, some e)
        | .ok entries =>
          match processEntries s.values entries with
          | (vals1, some e) => ({ s with values := vals1 }, some e)
          | (vals1, none) => metaPhase { s with values := vals1 } r

/-- Outcome of the HTTP round trip of `get_data` (the `session.get`
plus `response.json()` inside the first `try`): a timeout, an
`aiohttp.ClientError`, or a parsed body. -/
inductive Transport where
  | timeout
  | clientError
  | ok (body : JsonVal)

/-- `Luftdaten.get_data`: a transport failure is caught and re-raised as
`LuftdatenConnectionError` before `self.data` is assigned; a falsy body
nulls every tracked measurement and succeeds; otherwise the extraction
phase runs and only `TypeError`/`IndexError` are converted to the
generic `LuftdatenError`, any other exception escaping uncaught. -/
def Luftdaten.get_data (s : Luftdaten) (t : Transport) : Luftdaten × LuftResult :=
  match t with
  | .timeout => (s, .luftdatenConnectionError)
  | .clientError => (s, .luftdatenConnectionError)
  | .ok body =>
    let s0 : Luftdaten := { s with data := some body }
    if pyTruthy body then
      match extractPhase s0 body with
      | (s1, none) => (s1, .success)
      | (s1, some .typeError) => (s1, .luftdatenError)
      | (s1, some .indexError) => (s1, .luftdatenError)
      | (s1, some .keyError) => (s1, .uncaught .keyError)
      | (s1, some .valueError) => (s1, .uncaught .valueError)
    else
      ({ s0 with values := s0.values.map (fun p => (p.1, (none : Option Rat))) }, .success)

/-- `Luftdaten.validate_sensor`: `True if self.data else False`, a pure
read of the instance state, no request. -/
def Luftdaten.validate_sensor (s : Luftdaten) : Bool :=
  match s.data with
  | none => false
  | some d => pyTruthy d

/-- Instance state of the `LuftdatenPush` class (the fields `push_data`
reads). -/
structure LuftdatenPush where
  chip_id : String
  sw_version : String
  headers : List (String × String)

/-- `LuftdatenPush.__init__`: precompute the three request headers;
`'%s' % format(sensor_type)` is the decimal rendering of the pin code. -/
def LuftdatenPush.init (sensor_type : Int) (chip_id sw_version : String) : LuftdatenPush :=
  { chip_id := chip_id
    sw_version := sw_version
    headers := [(("content-type"), ("application/json")),
                (("X-Pin"), toString sensor_type),
                (("X-Sensor"), chip_id)] }

/-- The JSON body sent by `push_data`. -/
structure PushPayload where
  software_version : String
  sensordatavalues : List (String × Rat)

/-- Building of the payload: one `{value_type, value}` pair per key of
the caller-supplied readings dict, in iteration order. -/
def buildPayload (p : LuftdatenPush) (data : List (String × Rat)) : PushPayload :=
  { software_version := p.sw_version
    sensordatavalues := data.map (fun kv => (kv.1, kv.2)) }

/-- The response of a push round trip that completed: its content type
and, when the body is inspected as JSON, the parsed value (`none` models
a body on which `response.json()` raises the decode `ValueError`). -/
structure PushResponse where
  content_type : String
  jsonBody : Option JsonVal

/-- Outcome of the POST round trip of `push_data`. -/
inductive PushTransport where
  | timeout
  | clientError
  | ok (resp : PushResponse)

/-- What one `push_data` call did: the payload and headers it sent and
how it ended. -/
structure PushCall where
  payload : PushPayload
  headers : List (String × String)
  result : LuftResult

/-- `LuftdatenPush.push_data`: build the payload, POST it with the
precomputed headers; a transport failure raises
`LuftdatenConnectionError`; on a response, a `text/html` body is read
for logging, an `application/json` body is decoded for logging (its
decode error, a `ValueError`, is not caught), any other content type is
ignored, and nothing else is inspected. -/
def LuftdatenPush.push_data (p : LuftdatenPush) (data : List (String × Rat))
    (t : PushTransport) : PushCall :=
  { payload := buildPayload p data
    headers := p.headers
    result :=
      match t with
      | .timeout => .luftdatenConnectionError
      | .clientError => .luftdatenConnectionError
      | .ok resp =>
        if resp.content_type == ("text/html") then .success
        else if resp.content_type == ("application/json") then
          match resp.jsonBody with
          | some _ => .success
          | none => .uncaught .valueError
        else .success }

/-- The record's timestamp when it is a string (the hypothesis shape of
the selection claim). -/
def timestampStr (x : JsonVal) : Option String :=
  match pySubscript x ("timestamp") with
  | .ok (.str t) => some t
  | _ => none

/-- The entry list of the record `get_data` selects, when every step up
to the value loop succeeds. -/
def selectedEntries (body : JsonVal) : Option (List JsonVal) :=
  match pyIter body with
  | .error _ => none
  | .ok xs =>
    match selectRecord xs with
    | .error _ => none
    | .ok r =>
      match pySubscript r ("sensordatavalues") with
      | .error _ => none
      | .ok sdv =>
        match pyIter sdv with
        | .error _ => none
        | .ok entries => some entries

/-- Whether an entry of the value list targets the measurement key `k`. -/
def entryMatches (k e : JsonVal) : Bool :=
  match pySubscript e ("value_type") with
  | .ok vt => pyKeyEq vt k
  | .error _ => false

/-- The selected record's value list never targets `k` (vacuously true
when the extraction fails before reaching the loop). -/
def recordLacksKey (body k : JsonVal) : Bool :=
  match selectedEntries body with
  | some es => es.all (fun e => !(entryMatches k e))
  | none => true

/-! ## Key-equality and dict lemmas -/

theorem keyBeq_eq_of_true {x y : JsonVal} (h : keyBeq x y = true) : x = y := by
  cases x <;> cases y <;> simp [keyBeq] at h <;> simp [h]

theorem keyBeq_self_of_canon {a x : JsonVal} (h : canonKey a = some x) :
    keyBeq x x = true := by
  cases a <;> simp [canonKey] at h <;> subst h <;> simp [keyBeq]

theorem pyKeyEq_iff {a b : JsonVal} :
    pyKeyEq a b = true ↔ ∃ c, canonKey a = some c ∧ canonKey b = some c := by
  cases ha : canonKey a with
  | none => simp [pyKeyEq, ha]
  | some x =>
    cases hb : canonKey b with
    | none => simp [pyKeyEq, ha, hb]
    | some y =>
      simp only [pyKeyEq, ha, hb]
      constructor
      · intro h
        have hxy := keyBeq_eq_of_true h
        subst hxy
        exact ⟨x, rfl, rfl⟩
      · rintro ⟨c, hc1, hc2⟩
        injection hc1 with h1
        injection hc2 with h2
        subst h1
        subst h2
        exact keyBeq_self_of_canon ha

theorem pyKeyEq_euclid {a b c : JsonVal} (hab : pyKeyEq a b = true)
    (hac : pyKeyEq a c = true) : pyKeyEq b c = true := by
  obtain ⟨x, hax, hbx⟩ := pyKeyEq_iff.mp hab
  obtain ⟨y, hay, hcy⟩ := pyKeyEq_iff.mp hac
  obtain rfl : x = y := by rw [hax] at hay; injection hay
  exact pyKeyEq_iff.mpr ⟨x, hbx, hcy⟩

theorem dictFind_set_isSome (d : PyDict) (k0 k : JsonVal) (v : Option Rat)
    (h : (dictFind d k).isSome = true) :
    (dictFind (dictSet d k0 v) k).isSome = true := by
  induction d with
  | nil => simp [dictFind] at h
  | cons p rest ih =>
    by_cases h0 : pyKeyEq p.1 k0 = true
    · by_cases hk : pyKeyEq p.1 k = true
      · simp [dictSet, h0, dictFind, hk]
      · simp [dictSet, h0, dictFind, hk] at h ⊢
        exact h
    · by_cases hk : pyKeyEq p.1 k = true
      · simp [dictSet, h0, dictFind, hk]
      · simp [dictSet, h0, dictFind, hk] at h ⊢
        exact ih h

theorem dictContains_set_mono (d : PyDict) (k0 k : JsonVal) (v : Option Rat)
    (h : dictContains d k = true) : dictContains (dictSet d k0 v) k = true :=
  dictFind_set_isSome d k0 k v h

theorem dictFind_set_ne (d : PyDict) (k0 k : JsonVal) (v : Option Rat)
    (hne : pyKeyEq k0 k = false) :
    dictFind (dictSet d k0 v) k = dictFind d k := by
  induction d with
  | nil => simp [dictSet, dictFind, hne]
  | cons p rest ih =>
    by_cases h0 : pyKeyEq p.1 k0 = true
    · have hk : pyKeyEq p.1 k = false := by
        by_contra hc
        have hk' : pyKeyEq p.1 k = true := by
          cases hx : pyKeyEq p.1 k
          · exact absurd hx hc
          · rfl
        have := pyKeyEq_euclid h0 hk'
        rw [hne] at this
        cases this
      simp [dictSet, h0, dictFind, hk]
    · by_cases hk : pyKeyEq p.1 k = true
      · simp [dictSet, h0, dictFind, hk]
      · simp [dictSet, h0, dictFind, hk]
        exact ih

theorem dictLookup_set_ne (d : PyDict) (k0 k : JsonVal) (v : Option Rat)
    (hne : pyKeyEq k0 k = false) :
    dictLookup (dictSet d k0 v) k = dictLookup d k := by
  unfold dictLookup
  rw [dictFind_set_ne d k0 k v hne]

theorem dictFind_mapNull (d : PyDict) (k : JsonVal) :
    dictFind (d.map (fun p => (p.1, (none : Option Rat)))) k =
      (dictFind d k).map (fun p => (p.1, (none : Option Rat))) := by
  induction d with
  | nil => rfl
  | cons p rest ih =>
    by_cases hk : pyKeyEq p.1 k = true
    · simp [dictFind, hk]
    · simp [dictFind, hk, ih]

theorem dictContains_mapNull (d : PyDict) (k : JsonVal) :
    dictContains (d.map (fun p => (p.1, (none : Option Rat)))) k = dictContains d k := by
  simp [dictContains, dictFind_mapNull]

theorem dictLookup_mapNull (d : PyDict) (k : JsonVal)
    (h : dictContains d k = true) :
    dictLookup (d.map (fun p => (p.1, (none : Option Rat)))) k = some none := by
  unfold dictLookup
  rw [dictFind_mapNull]
  unfold dictContains at h
  cases hf : dictFind d k with
  | none => rw [hf] at h; simp at h
  | some p => simp [hf]

/-! ## Value-loop and extraction-phase lemmas -/

theorem processEntry_contains (vals : PyDict) (e k : JsonVal)
    (h : dictContains vals k = true) :
    dictContains (processEntry vals e).1 k = true := by
  cases hs : pySubscript e ("value_type") with
  | error exc => simpa [processEntry, hs] using h
  | ok vt =>
    by_cases hh : hashable vt = true
    · have h1 : dictContains (if dictContains vals vt then vals
          else dictSet vals vt none) k = true := by
        split
        · exact h
        · exact dictContains_set_mono vals vt k none h
      cases hsv : pySubscript e ("value") with
      | error exc => simpa [processEntry, hs, hh, hsv] using h1
      | ok v =>
        cases hf : pyFloat v with
        | error exc => simpa [processEntry, hs, hh, hsv, hf] using h1
        | ok q =>
          simpa [processEntry, hs, hh, hsv, hf] using
            dictContains_set_mono _ vt k (some q) h1
    · simpa [processEntry, hs, hh] using h

theorem processEntries_contains (es : List JsonVal) :
    ∀ (vals : PyDict) (k : JsonVal), dictContains vals k = true →
      dictContains (processEntries vals es).1 k = true := by
  induction es with
  | nil =>
    intro vals k h
    simpa [processEntries] using h
  | cons e rest ih =>
    intro vals k h
    have h1 := processEntry_contains vals e k h
    cases hp : processEntry vals e with
    | mk vals1 exc? =>
      rw [hp] at h1
      cases exc? with
      | some exc => simpa [processEntries, hp] using h1
      | none => simpa [processEntries, hp] using ih vals1 k h1

theorem processEntry_lookup (vals : PyDict) (e k : JsonVal)
    (hm : entryMatches k e = false) :
    dictLookup (processEntry vals e).1 k = dictLookup vals k := by
  cases hs : pySubscript e ("value_type") with
  | error exc => simp [processEntry, hs]
  | ok vt =>
    have hne : pyKeyEq vt k = false := by
      simpa [entryMatches, hs] using hm
    have h1 : dictLookup (if dictContains vals vt then vals
        else dictSet vals vt none) k = dictLookup vals k := by
      split
      · rfl
      · exact dictLookup_set_ne vals vt k none hne
    by_cases hh : hashable vt = true
    · cases hsv : pySubscript e ("value") with
      | error exc => simpa [processEntry, hs, hh, hsv] using h1
      | ok v =>
        cases hf : pyFloat v with
        | error exc => simpa [processEntry, hs, hh, hsv, hf] using h1
        | ok q =>
          have h2 := dictLookup_set_ne (if dictContains vals vt then vals
              else dictSet vals vt none) vt k (some q) hne
          simp [processEntry, hs, hh, hsv, hf, h2, h1]
    · simp [processEntry, hs, hh]

theorem processEntries_lookup (es : List JsonVal) :
    ∀ (vals : PyDict) (k : JsonVal),
      es.all (fun e => !(entryMatches k e)) = true →
      dictLookup (processEntries vals es).1 k = dictLookup vals k := by
  induction es with
  | nil =>
    intro vals k _
    simp [processEntries]
  | cons e rest ih =>
    intro vals k hall
    rw [List.all_cons] at hall
    obtain ⟨he, hrest⟩ := Bool.and_eq_true_iff.mp hall
    have hm : entryMatches k e = false := by
      cases hx : entryMatches k e
      · rfl
      · rw [hx] at he; cases he
    have h1 := processEntry_lookup vals e k hm
    cases hp : processEntry vals e with
    | mk vals1 exc? =>
      rw [hp] at h1
      cases exc? with
      | some exc => simpa [processEntries, hp] using h1
      | none =>
        simp only [processEntries, hp]
        rw [ih vals1 k hrest]
        exact h1

theorem metaPhase_values (s : Luftdaten) (r : JsonVal) :
    (metaPhase s r).1.values = s.values := by
  cases h1 : locField r ("longitude") with
  | error e => simp [metaPhase, h1]
  | ok lon =>
    cases h2 : locField r ("latitude") with
    | error e => simp [metaPhase, h1, h2]
    | ok lat => simp [metaPhase, h1, h2]

theorem metaPhase_data (s : Luftdaten) (r : JsonVal) :
    (metaPhase s r).1.data = s.data := by
  cases h1 : locField r ("longitude") with
  | error e => simp [metaPhase, h1]
  | ok lon =>
    cases h2 : locField r ("latitude") with
    | error e => simp [metaPhase, h1, h2]
    | ok lat => simp [metaPhase, h1, h2]

theorem extractPhase_contains (s : Luftdaten) (body : JsonVal) (k : JsonVal)
    (h : dictContains s.values k = true) :
    dictContains (extractPhase s body).1.values k = true := by
  cases hi : pyIter body with
  | error e => simpa [extractPhase, hi] using h
  | ok xs =>
    cases hsel : selectRecord xs with
    | error e => simpa [extractPhase, hi, hsel] using h
    | ok r =>
      cases hsdv : pySubscript r ("sensordatavalues") with
      | error e => simpa [extractPhase, hi, hsel, hsdv] using h
      | ok sdv =>
        cases hent : pyIter sdv with
        | error e => simpa [extractPhase, hi, hsel, hsdv, hent] using h
        | ok entries =>
          have h1 := processEntries_contains entries s.values k h
          cases hp : processEntries s.values entries with
          | mk vals1 exc? =>
            rw [hp] at h1
            cases exc? with
            | some exc => simpa [extractPhase, hi, hsel, hsdv, hent, hp] using h1
            | none =>
              simp only [extractPhase, hi, hsel, hsdv, hent, hp]
              rw [metaPhase_values]
              exact h1

theorem extractPhase_data (s : Luftdaten) (body : JsonVal) :
    (extractPhase s body).1.data = s.data := by
  cases hi : pyIter body with
  | error e => simp [extractPhase, hi]
  | ok xs =>
    cases hsel : selectRecord xs with
    | error e => simp [extractPhase, hi, hsel]
    | ok r =>
      cases hsdv : pySubscript r ("sensordatavalues") with
      | error e => simp [extractPhase, hi, hsel, hsdv]
      | ok sdv =>
        cases hent : pyIter sdv with
        | error e => simp [extractPhase, hi, hsel, hsdv, hent]
        | ok entries =>
          cases hp : processEntries s.values entries with
          | mk vals1 exc? =>
            cases exc? with
            | some exc => simp [extractPhase, hi, hsel, hsdv, hent, hp]
            | none =>
              simp only [extractPhase, hi, hsel, hsdv, hent, hp]
              rw [metaPhase_data]

theorem extractPhase_lookup (s : Luftdaten) (body : JsonVal) (k : JsonVal)
    (hl : recordLacksKey body k = true) :
    dictLookup (extractPhase s body).1.values k = dictLookup s.values k := by
  cases hi : pyIter body with
  | error e => simp [extractPhase, hi]
  | ok xs =>
    cases hsel : selectRecord xs with
    | error e => simp [extractPhase, hi, hsel]
    | ok r =>
      cases hsdv : pySubscript r ("sensordatavalues") with
      | error e => simp [extractPhase, hi, hsel, hsdv]
      | ok sdv =>
        cases hent : pyIter sdv with
        | error e => simp [extractPhase, hi, hsel, hsdv, hent]
        | ok entries =>
          have hall : entries.all (fun e => !(entryMatches k e)) = true := by
            simpa [recordLacksKey, selectedEntries, hi, hsel, hsdv, hent] using hl
          have h1 := processEntries_lookup entries s.values k hall
          cases hp : processEntries s.values entries with
          | mk vals1 exc? =>
            rw [hp] at h1
            cases exc? with
            | some exc => simpa [extractPhase, hi, hsel, hsdv, hent, hp] using h1
            | none =>
              simp only [extractPhase, hi, hsel, hsdv, hent, hp]
              rw [metaPhase_values]
              exact h1

/-! ## Record-selection lemmas -/

theorem timestampStr_some {x : JsonVal} {t : String} (h : timestampStr x = some t) :
    pySubscript x ("timestamp") = .ok (.str t) := by
  unfold timestampStr at h
  cases hs : pySubscript x ("timestamp") with
  | error e => rw [hs] at h; cases h
  | ok v =>
    rw [hs] at h
    cases v <;> simp_all

theorem mapExcept_timestamps (xs : List JsonVal)
    (h : ∀ x ∈ xs, (timestampStr x).isSome = true) :
    ∃ ts : List String,
      mapExcept (fun r => pySubscript r ("timestamp")) xs = .ok (ts.map JsonVal.str) ∧
      ts.length = xs.length ∧
      ∀ p ∈ xs.zip ts, timestampStr p.1 = some p.2 := by
  induction xs with
  | nil => exact ⟨[], rfl, rfl, by simp⟩
  | cons x rest ih =>
    have hx : (timestampStr x).isSome = true := h x (by simp)
    obtain ⟨t, ht⟩ := Option.isSome_iff_exists.mp hx
    have hsub := timestampStr_some ht
    obtain ⟨ts, hmap, hlen, hcorr⟩ := ih (fun y hy => h y (by simp [hy]))
    refine ⟨t :: ts, ?_, by simp [hlen], ?_⟩
    · simp [mapExcept, hsub, hmap]
    · intro p hp
      rw [List.zip_cons_cons, List.mem_cons] at hp
      rcases hp with rfl | hp'
      · exact ht
      · exact hcorr p hp'

theorem allSome_asStr (ts : List String) :
    allSome asStrKey (ts.map JsonVal.str) = some ts := by
  induction ts with
  | nil => rfl
  | cons t rest ih => simp [allSome, asStrKey, ih]

theorem firstMaxBy_mem {α β : Type} [LinearOrder β] (l : List (α × β)) :
    ∀ b : α × β, firstMaxBy b l = b ∨ firstMaxBy b l ∈ l := by
  induction l with
  | nil =>
    intro b
    left
    rfl
  | cons y ys ih =>
    intro b
    rcases ih (if b.2 < y.2 then y else b) with h | h
    · rw [firstMaxBy, h]
      split
      · right
        exact List.mem_cons_self y ys
      · left
        rfl
    · right
      rw [firstMaxBy]
      exact List.mem_cons_of_mem y h

theorem firstMaxBy_le {α β : Type} [LinearOrder β] (l : List (α × β)) :
    ∀ b : α × β, b.2 ≤ (firstMaxBy b l).2 ∧ ∀ y ∈ l, y.2 ≤ (firstMaxBy b l).2 := by
  induction l with
  | nil =>
    intro b
    exact ⟨le_refl _, by simp⟩
  | cons y ys ih =>
    intro b
    obtain ⟨h1, h2⟩ := ih (if b.2 < y.2 then y else b)
    rw [firstMaxBy]
    refine ⟨le_trans ?_ h1, ?_⟩
    · split
      · next hlt => exact le_of_lt hlt
      · exact le_refl _
    · intro z hz
      rcases List.mem_cons.mp hz with rfl | hz'
      · refine le_trans ?_ h1
        split
        · exact le_refl _
        · next hlt => exact le_of_not_lt hlt
      · exact h2 z hz'

theorem mem_zip_fst {α β : Type} : ∀ (l1 : List α) (l2 : List β) (p : α × β),
    p ∈ l1.zip l2 → p.1 ∈ l1 := by
  intro l1
  induction l1 with
  | nil =>
    intro l2 p hp
    simp [List.zip] at hp
  | cons x rest ih =>
    intro l2 p hp
    cases l2 with
    | nil => simp [List.zip] at hp
    | cons t ts =>
      rw [List.zip_cons_cons, List.mem_cons] at hp
      rcases hp with rfl | hp'
      · simp
      · exact List.mem_cons_of_mem x (ih ts p hp')

theorem mem_zip_of_mem_fst {α β : Type} : ∀ (l1 : List α) (l2 : List β) (a : α),
    a ∈ l1 → l1.length = l2.length → ∃ b, (a, b) ∈ l1.zip l2 := by
  intro l1
  induction l1 with
  | nil =>
    intro l2 a ha
    simp at ha
  | cons x rest ih =>
    intro l2 a ha hlen
    cases l2 with
    | nil => simp at hlen
    | cons t ts =>
      rw [List.mem_cons] at ha
      rcases ha with rfl | ha'
      · exact ⟨t, by simp [List.zip_cons_cons]⟩
      · obtain ⟨b, hb⟩ := ih ts a ha' (by simpa using hlen)
        exact ⟨b, by rw [List.zip_cons_cons]; exact List.mem_cons_of_mem _ hb⟩

/-! ## `get_data` reduction helpers -/

theorem pyTruthy_false_of_not {body : JsonVal} (h : ¬ pyTruthy body = true) :
    pyTruthy body = false := by
  cases hb : pyTruthy body
  · rfl
  · exact absurd hb h

theorem get_data_ok_data (s : Luftdaten) (body : JsonVal) :
    (Luftdaten.get_data s (.ok body)).1.data = some body := by
  by_cases ht : pyTruthy body = true
  · simp only [Luftdaten.get_data, ht]
    cases hx : extractPhase { s with data := some body } body with
    | mk s1 exc? =>
      have hd := extractPhase_data { s with data := some body } body
      rw [hx] at hd
      cases exc? with
      | none => simpa using hd
      | some exc => cases exc <;> simpa using hd
  · simp [Luftdaten.get_data, pyTruthy_false_of_not ht]

theorem validate_after_get_data (s : Luftdaten) (body : JsonVal) :
    Luftdaten.validate_sensor (Luftdaten.get_data s (.ok body)).1 = pyTruthy body := by
  have hd := get_data_ok_data s body
  unfold Luftdaten.validate_sensor
  rw [hd]

/-! ## Claim theorems -/

/-- C3: a `get_data` call whose body parses to an empty (`[]`) or null
(`None`) sequence sets every measurement key already tracked to null,
removes no key, and returns successfully. -/
theorem get_data_empty_response (s : Luftdaten) (body : JsonVal)
    (h : body = JsonVal.null ∨ body = JsonVal.arr []) :
    (Luftdaten.get_data s (.ok body)).2 = .success ∧
    (Luftdaten.get_data s (.ok body)).1.values =
      s.values.map (fun p => (p.1, (none : Option Rat))) ∧
    (∀ k, dictContains (Luftdaten.get_data s (.ok body)).1.values k =
      dictContains s.values k) ∧
    (∀ k, dictContains s.values k = true →
      dictLookup (Luftdaten.get_data s (.ok body)).1.values k = some none) := by
  have ht : pyTruthy body = false := by rcases h with rfl | rfl <;> rfl
  have heq : Luftdaten.get_data s (.ok body) =
      ({ s with
          data := some body
          values := s.values.map (fun p => (p.1, (none : Option Rat))) }, .success) := by
    simp [Luftdaten.get_data, ht]
  rw [heq]
  refine ⟨rfl, rfl, ?_, ?_⟩
  · intro k
    exact dictContains_mapNull s.values k
  · intro k hk
    exact dictLookup_mapNull s.values k hk

/-- C3 witness: a reader already tracking key `P1` with value `7`, on an
empty-list response. -/
theorem get_data_empty_response_witness :
    (Luftdaten.get_data
      { sensor_id := 5, data := none,
        values := [(JsonVal.str ("P1"), some 7)], meta := {} }
      (.ok (JsonVal.arr []))).2 = .success ∧
    (Luftdaten.get_data
      { sensor_id := 5, data := none,
        values := [(JsonVal.str ("P1"), some 7)], meta := {} }
      (.ok (JsonVal.arr []))).1.values =
        [(JsonVal.str ("P1"), some 7)].map (fun p => (p.1, (none : Option Rat))) ∧
    (∀ k, dictContains (Luftdaten.get_data
      { sensor_id := 5, data := none,
        values := [(JsonVal.str ("P1"), some 7)], meta := {} }
      (.ok (JsonVal.arr []))).1.values k =
        dictContains [(JsonVal.str ("P1"), some 7)] k) ∧
    (∀ k, dictContains [(JsonVal.str ("P1"), some 7)] k = true →
      dictLookup (Luftdaten.get_data
        { sensor_id := 5, data := none,
          values := [(JsonVal.str ("P1"), some 7)], meta := {} }
        (.ok (JsonVal.arr []))).1.values k = some none) :=
  get_data_empty_response
    { sensor_id := 5, data := none,
      values := [(JsonVal.str ("P1"), some 7)], meta := {} }
    (JsonVal.arr []) (Or.inr rfl)

/-- C5: a transport failure (timeout or connection/protocol error)
during either `get_data` or `push_data` raises
`LuftdatenConnectionError` and nothing else; the single round trip of
the model is the whole call, so no retry happens. -/
theorem transport_failure_connection_error :
    (∀ s : Luftdaten,
      Luftdaten.get_data s Transport.timeout = (s, .luftdatenConnectionError) ∧
      Luftdaten.get_data s Transport.clientError = (s, .luftdatenConnectionError)) ∧
    (∀ (p : LuftdatenPush) (data : List (String × Rat)),
      (LuftdatenPush.push_data p data PushTransport.timeout).result =
        .luftdatenConnectionError ∧
      (LuftdatenPush.push_data p data PushTransport.clientError).result =
        .luftdatenConnectionError) :=
  ⟨fun _ => ⟨rfl, rfl⟩, fun _ _ => ⟨rfl, rfl⟩⟩

/-- C7: `validate_sensor` is false on a fresh instance, false after a
`get_data` whose raw response was falsy, true after one that received at
least one record; it is a pure function of the instance state (no
request, no mutation). -/
theorem validate_sensor_spec :
    (∀ sid : Int, Luftdaten.validate_sensor (Luftdaten.init sid) = false) ∧
    (∀ (s : Luftdaten) (body : JsonVal), pyTruthy body = false →
      Luftdaten.validate_sensor (Luftdaten.get_data s (.ok body)).1 = false) ∧
    (∀ (s : Luftdaten) (body x : JsonVal) (xs : List JsonVal),
      body = JsonVal.arr (x :: xs) →
      Luftdaten.validate_sensor (Luftdaten.get_data s (.ok body)).1 = true) := by
  refine ⟨fun _ => rfl, ?_, ?_⟩
  · intro s body ht
    rw [validate_after_get_data, ht]
  · intro s body x xs hb
    rw [validate_after_get_data, hb]
    rfl

/-- C7 witness: a fresh reader for sensor 7, an empty response, then a
one-record response. -/
theorem validate_sensor_spec_witness :
    Luftdaten.validate_sensor (Luftdaten.init 7) = false ∧
    Luftdaten.validate_sensor
      (Luftdaten.get_data (Luftdaten.init 7) (.ok (JsonVal.arr []))).1 = false ∧
    Luftdaten.validate_sensor
      (Luftdaten.get_data (Luftdaten.init 7) (.ok (JsonVal.arr [JsonVal.null]))).1 = true :=
  ⟨validate_sensor_spec.1 7,
   validate_sensor_spec.2.1 (Luftdaten.init 7) (JsonVal.arr []) rfl,
   validate_sensor_spec.2.2 (Luftdaten.init 7) (JsonVal.arr [JsonVal.null])
     JsonVal.null [] rfl⟩

/-- C8: the push payload carries the construction-time software version
and exactly one `{value_type, value}` pair per key of the caller's
readings mapping, and the call sends it with the precomputed headers
`content-type: application/json`, `X-Pin` (the pin code) and `X-Sensor`
(the chip id). -/
theorem push_payload_and_headers (sensor_type : Int) (chip_id sw_version : String)
    (data : List (String × Rat)) (t : PushTransport) :
    (buildPayload (LuftdatenPush.init sensor_type chip_id sw_version) data).software_version
        = sw_version ∧
    (buildPayload (LuftdatenPush.init sensor_type chip_id sw_version) data).sensordatavalues
        = data ∧
    (LuftdatenPush.init sensor_type chip_id sw_version).headers =
      [(("content-type"), ("application/json")),
       (("X-Pin"), toString sensor_type),
       (("X-Sensor"), chip_id)] ∧
    (LuftdatenPush.push_data (LuftdatenPush.init sensor_type chip_id sw_version) data t).payload
        = buildPayload (LuftdatenPush.init sensor_type chip_id sw_version) data ∧
    (LuftdatenPush.push_data (LuftdatenPush.init sensor_type chip_id sw_version) data t).headers
        = (LuftdatenPush.init sensor_type chip_id sw_version).headers := by
  refine ⟨rfl, ?_, rfl, rfl, rfl⟩
  simp [buildPayload]

/-- C9: across any single `get_data` call, whatever its outcome, no key
ever leaves the `values` mapping. -/
theorem values_keys_monotone (s : Luftdaten) (t : Transport) (k : JsonVal)
    (h : dictContains s.values k = true) :
    dictContains (Luftdaten.get_data s t).1.values k = true := by
  cases t with
  | timeout => exact h
  | clientError => exact h
  | ok body =>
    by_cases ht : pyTruthy body = true
    · simp only [Luftdaten.get_data, ht]
      cases hx : extractPhase { s with data := some body } body with
      | mk s1 exc? =>
        have hc := extractPhase_contains { s with data := some body } body k h
        rw [hx] at hc
        cases exc? with
        | none => simpa using hc
        | some exc => cases exc <;> simpa using hc
    · simp only [Luftdaten.get_data, pyTruthy_false_of_not ht]
      simpa [dictContains_mapNull] using h

/-- C9 witness: a reader tracking `P1`, fetched with an empty response. -/
theorem values_keys_monotone_witness :
    dictContains (Luftdaten.get_data
      { sensor_id := 3, data := none,
        values := [(JsonVal.str ("P1"), some 7)], meta := {} }
      (Transport.ok (JsonVal.arr []))).1.values (JsonVal.str ("P1")) = true :=
  values_keys_monotone
    { sensor_id := 3, data := none,
      values := [(JsonVal.str ("P1"), some 7)], meta := {} }
    (Transport.ok (JsonVal.arr [])) (JsonVal.str ("P1")) (by decide)

/-- C10: a `get_data` call that fails at the transport level leaves the
`values` and `meta` mappings exactly as they were. -/
theorem connection_error_preserves_state (s : Luftdaten) :
    (Luftdaten.get_data s Transport.timeout).1.values = s.values ∧
    (Luftdaten.get_data s Transport.timeout).1.meta = s.meta ∧
    (Luftdaten.get_data s Transport.clientError).1.values = s.values ∧
    (Luftdaten.get_data s Transport.clientError).1.meta = s.meta :=
  ⟨rfl, rfl, rfl, rfl⟩

/-- C1 counterexample: two structurally invalid fetch responses on which
`get_data` does not raise the generic `LuftdatenError`: a record (a
dict) lacking the `sensordatavalues` key raises an uncaught `KeyError`,
and a non-numeric string value raises an uncaught `ValueError`, because
the extraction `try` only catches `TypeError` and `IndexError`. -/
theorem get_data_invalid_record_uncaught :
    (Luftdaten.get_data (Luftdaten.init 1)
      (.ok (JsonVal.arr [JsonVal.obj
        [(("timestamp"), JsonVal.str ("2020-01-01T00:00:00")),
         (("location"), JsonVal.obj
           [(("longitude"), JsonVal.str ("9.1")),
            (("latitude"), JsonVal.str ("48.7"))])]]))).2 = .uncaught .keyError ∧
    (Luftdaten.get_data (Luftdaten.init 1)
      (.ok (JsonVal.arr [JsonVal.obj
        [(("timestamp"), JsonVal.str ("2020-01-01T00:00:00")),
         (("location"), JsonVal.obj
           [(("longitude"), JsonVal.str ("9.1")),
            (("latitude"), JsonVal.str ("48.7"))])]]))).2 ≠ .luftdatenError ∧
    (Luftdaten.get_data (Luftdaten.init 1)
      (.ok (JsonVal.arr [JsonVal.obj
        [(("timestamp"), JsonVal.str ("2020-01-01T00:00:00")),
         (("sensordatavalues"), JsonVal.arr [JsonVal.obj
           [(("value_type"), JsonVal.str ("P1")),
            (("value"), JsonVal.str ("abc"))]]),
         (("location"), JsonVal.obj
           [(("longitude"), JsonVal.str ("9.1")),
            (("latitude"), JsonVal.str ("48.7"))])]]))).2 = .uncaught .valueError ∧
    (Luftdaten.get_data (Luftdaten.init 1)
      (.ok (JsonVal.arr [JsonVal.obj
        [(("timestamp"), JsonVal.str ("2020-01-01T00:00:00")),
         (("sensordatavalues"), JsonVal.arr [JsonVal.obj
           [(("value_type"), JsonVal.str ("P1")),
            (("value"), JsonVal.str ("abc"))]]),
         (("location"), JsonVal.obj
           [(("longitude"), JsonVal.str ("9.1")),
            (("latitude"), JsonVal.str ("48.7"))])]]))).2 ≠ .luftdatenError := by
  refine ⟨by decide, by decide, by decide, by decide⟩

/-- C1 (amended): on a successful round trip `get_data` never raises
`LuftdatenConnectionError`; a structural fault raises the generic
`LuftdatenError` exactly when the underlying Python exception is a
`TypeError` or `IndexError` (e.g. a non-indexable record or a null
value), while missing-key faults (`KeyError`) and non-numeric string
values (`ValueError`) escape uncaught instead of being converted. -/
theorem get_data_ok_error_kinds (s : Luftdaten) (body : JsonVal) :
    (Luftdaten.get_data s (.ok body)).2 ≠ .luftdatenConnectionError ∧
    (∀ exc, (Luftdaten.get_data s (.ok body)).2 = .uncaught exc →
      exc = .keyError ∨ exc = .valueError) ∧
    (∀ exc, pyTruthy body = true →
      (extractPhase { s with data := some body } body).2 = some exc →
      ((Luftdaten.get_data s (.ok body)).2 = .luftdatenError ↔
        (exc = .typeError ∨ exc = .indexError))) := by
  by_cases ht : pyTruthy body = true
  · cases hx : extractPhase { s with data := some body } body with
    | mk s1 exc? =>
      cases exc? with
      | none =>
        have hred : (Luftdaten.get_data s (.ok body)).2 = .success := by
          simp [Luftdaten.get_data, ht, hx]
        refine ⟨by rw [hred]; decide, ?_, ?_⟩
        · intro exc h
          rw [hred] at h
          cases h
        · intro exc _ hx2
          have hx2' : (none : Option PyExc) = some exc := hx2
          cases hx2'
      | some exc0 =>
        cases exc0 with
        | typeError =>
          have hred : (Luftdaten.get_data s (.ok body)).2 = .luftdatenError := by
            simp [Luftdaten.get_data, ht, hx]
          refine ⟨by rw [hred]; decide, ?_, ?_⟩
          · intro exc h
            rw [hred] at h
            cases h
          · intro exc hht hh
            have hh' : some PyExc.typeError = some exc := hh
            injection hh' with hh2
            rw [← hh2, hred]
            simp
        | indexError =>
          have hred : (Luftdaten.get_data s (.ok body)).2 = .luftdatenError := by
            simp [Luftdaten.get_data, ht, hx]
          refine ⟨by rw [hred]; decide, ?_, ?_⟩
          · intro exc h
            rw [hred] at h
            cases h
          · intro exc hht hh
            have hh' : some PyExc.indexError = some exc := hh
            injection hh' with hh2
            rw [← hh2, hred]
            simp
        | keyError =>
          have hred : (Luftdaten.get_data s (.ok body)).2 = .uncaught .keyError := by
            simp [Luftdaten.get_data, ht, hx]
          refine ⟨by rw [hred]; decide, ?_, ?_⟩
          · intro exc h
            rw [hred] at h
            injection h with h2
            exact Or.inl h2.symm
          · intro exc hht hh
            have hh' : some PyExc.keyError = some exc := hh
            injection hh' with hh2
            rw [← hh2, hred]
            simp
        | valueError =>
          have hred : (Luftdaten.get_data s (.ok body)).2 = .uncaught .valueError := by
            simp [Luftdaten.get_data, ht, hx]
          refine ⟨by rw [hred]; decide, ?_, ?_⟩
          · intro exc h
            rw [hred] at h
            injection h with h2
            exact Or.inr h2.symm
          · intro exc hht hh
            have hh' : some PyExc.valueError = some exc := hh
            injection hh' with hh2
            rw [← hh2, hred]
            simp
  · have hred : (Luftdaten.get_data s (.ok body)).2 = .success := by
      simp [Luftdaten.get_data, pyTruthy_false_of_not ht]
    refine ⟨by rw [hred]; decide, ?_, ?_⟩
    · intro exc h
      rw [hred] at h
      cases h
    · intro exc hht _
      exact absurd hht ht

/-- C1 amended-claim witness: a truthy body whose only record is a bare
number, so key extraction raises `TypeError`, converted to
`LuftdatenError`; and never `LuftdatenConnectionError`. -/
theorem get_data_ok_error_kinds_witness :
    (Luftdaten.get_data (Luftdaten.init 1) (.ok (JsonVal.arr [JsonVal.num 1]))).2
        = .luftdatenError ∧
    (Luftdaten.get_data (Luftdaten.init 1) (.ok (JsonVal.arr [JsonVal.num 1]))).2
        ≠ .luftdatenConnectionError :=
  ⟨((get_data_ok_error_kinds (Luftdaten.init 1) (JsonVal.arr [JsonVal.num 1])).2.2
      PyExc.typeError (by decide) (by decide)).mpr (Or.inl rfl),
   (get_data_ok_error_kinds (Luftdaten.init 1) (JsonVal.arr [JsonVal.num 1])).1⟩

/-- C6 counterexample: a push whose round trip succeeds with an
`application/json` response whose body is malformed JSON raises the
uncaught decode `ValueError` from `response.json()` instead of
succeeding. -/
theorem push_malformed_json_uncaught :
    (LuftdatenPush.push_data (LuftdatenPush.init 1 ("esp8266-1") ("1.0")) []
      (PushTransport.ok { content_type := ("application/json"), jsonBody := none })).result
        = .uncaught .valueError ∧
    (LuftdatenPush.push_data (LuftdatenPush.init 1 ("esp8266-1") ("1.0")) []
      (PushTransport.ok { content_type := ("application/json"), jsonBody := none })).result
        ≠ .success := by
  refine ⟨by decide, by decide⟩

/-- C6 (amended): a push whose round trip succeeds never raises
`LuftdatenConnectionError` or `LuftdatenError`; it succeeds for every
response content and body, with one exception: an `application/json`
response whose body `response.json()` cannot decode raises that decode
error (a `ValueError`) uncaught, because the `except` clause only
catches transport failures. -/
theorem push_ok_result_eq (p : LuftdatenPush) (data : List (String × Rat))
    (resp : PushResponse) :
    (LuftdatenPush.push_data p data (PushTransport.ok resp)).result =
      (if resp.content_type == ("application/json") && resp.jsonBody.isNone
       then LuftResult.uncaught .valueError else .success) := by
  rcases resp with ⟨ct, jb⟩
  by_cases h1 : ct = ("text/html")
  · subst h1
    cases jb <;> simp [LuftdatenPush.push_data]
  · by_cases h2 : ct = ("application/json")
    · subst h2
      cases jb <;> simp [LuftdatenPush.push_data]
    · cases jb <;> simp [LuftdatenPush.push_data, h1, h2]

/-- C2: on a non-empty record list in which every record carries a
string timestamp, the record `get_data` uses (`sorted(...,
reverse=True)[0]`, computed here by `selectRecord`) is a member of the
list whose timestamp is lexicographically maximal among all returned
records. -/
theorem selectRecord_max_timestamp (xs : List JsonVal)
    (hne : xs ≠ [])
    (hts : ∀ x ∈ xs, (timestampStr x).isSome = true) :
    ∃ r tr, selectRecord xs = .ok r ∧ r ∈ xs ∧ timestampStr r = some tr ∧
      ∀ x ∈ xs, ∀ t, timestampStr x = some t → t ≤ tr := by
  obtain ⟨ts, hmap, hlen, hcorr⟩ := mapExcept_timestamps xs hts
  cases xs with
  | nil => exact absurd rfl hne
  | cons x1 rest =>
    cases ts with
    | nil => simp at hlen
    | cons t1 ts' =>
      cases rest with
      | nil =>
        have h1 : timestampStr x1 = some t1 :=
          hcorr (x1, t1) (by simp [List.zip_cons_cons])
        refine ⟨x1, t1, ?_, by simp, h1, ?_⟩
        · cases ts' with
          | nil => simp [selectRecord, hmap]
          | cons u us => simp at hlen
        · intro x hx t ht
          have hx1 : x = x1 := by simpa using hx
          subst hx1
          rw [h1] at ht
          injection ht with h2
          rw [h2]
      | cons x2 rest' =>
        cases ts' with
        | nil => simp at hlen
        | cons t2 ts'' =>
          have hsel : selectRecord (x1 :: x2 :: rest') =
              .ok (firstMaxBy (x1, t1) ((x2 :: rest').zip (t2 :: ts''))).1 := by
            simp [selectRecord, hmap, allSome, asStrKey, allSome_asStr]
          obtain ⟨hinit, hall⟩ :=
            firstMaxBy_le ((x2 :: rest').zip (t2 :: ts'')) (x1, t1)
          have hPmem : firstMaxBy (x1, t1) ((x2 :: rest').zip (t2 :: ts''))
              ∈ (x1 :: x2 :: rest').zip (t1 :: t2 :: ts'') := by
            rw [List.zip_cons_cons, List.mem_cons]
            rcases firstMaxBy_mem ((x2 :: rest').zip (t2 :: ts'')) (x1, t1) with h | h
            · exact Or.inl h
            · exact Or.inr h
          refine ⟨(firstMaxBy (x1, t1) ((x2 :: rest').zip (t2 :: ts''))).1,
                  (firstMaxBy (x1, t1) ((x2 :: rest').zip (t2 :: ts''))).2,
                  hsel, ?_, ?_, ?_⟩
          · exact mem_zip_fst (x1 :: x2 :: rest') (t1 :: t2 :: ts'') _ hPmem
          · have := hcorr _ hPmem
            simpa using this
          · intro x hx t ht
            obtain ⟨b, hb⟩ := mem_zip_of_mem_fst (x1 :: x2 :: rest')
              (t1 :: t2 :: ts'') x hx hlen.symm
            have hcb : timestampStr x = some b := hcorr (x, b) hb
            rw [ht] at hcb
            injection hcb with h2
            rw [h2]
            rw [List.zip_cons_cons, List.mem_cons] at hb
            rcases hb with heq1 | hb'
            · have hbt : b = t1 := congrArg Prod.snd heq1
              rw [hbt]
              exact hinit
            · exact hall (x, b) hb'

/-- C2 witness: two records with string timestamps; the claim's
conclusion at this concrete input. -/
theorem selectRecord_max_timestamp_witness :
    ∃ r tr,
      selectRecord [JsonVal.obj [(("timestamp"), JsonVal.str ("2020-01-01"))],
                    JsonVal.obj [(("timestamp"), JsonVal.str ("2021-01-01"))]] = .ok r ∧
      r ∈ [JsonVal.obj [(("timestamp"), JsonVal.str ("2020-01-01"))],
           JsonVal.obj [(("timestamp"), JsonVal.str ("2021-01-01"))]] ∧
      timestampStr r = some tr ∧
      ∀ x ∈ [JsonVal.obj [(("timestamp"), JsonVal.str ("2020-01-01"))],
             JsonVal.obj [(("timestamp"), JsonVal.str ("2021-01-01"))]],
        ∀ t, timestampStr x = some t → t ≤ tr :=
  selectRecord_max_timestamp
    [JsonVal.obj [(("timestamp"), JsonVal.str ("2020-01-01"))],
     JsonVal.obj [(("timestamp"), JsonVal.str ("2021-01-01"))]]
    (by simp) (by decide)

/-- C4: on a truthy response, a measurement key already present in the
`values` mapping whose type never appears in the selected record's
`sensordatavalues` list keeps exactly the value it had before the call,
whatever the call's outcome. -/
theorem get_data_preserves_absent_key (s : Luftdaten) (body k : JsonVal)
    (ht : pyTruthy body = true)
    (_hk : dictContains s.values k = true)
    (habs : recordLacksKey body k = true) :
    dictLookup (Luftdaten.get_data s (.ok body)).1.values k = dictLookup s.values k := by
  simp only [Luftdaten.get_data, ht]
  have hl := extractPhase_lookup { s with data := some body } body k habs
  cases hx : extractPhase { s with data := some body } body with
  | mk s1 exc? =>
    rw [hx] at hl
    cases exc? with
    | none => simpa using hl
    | some exc => cases exc <;> simpa using hl

/-- C4 witness: a reader tracking `P9` with value `7`; the response's
only record reports only `P1`, and `P9` keeps its value. -/
theorem get_data_preserves_absent_key_witness :
    dictLookup (Luftdaten.get_data
      { sensor_id := 9, data := none,
        values := [(JsonVal.str ("P9"), some 7)], meta := {} }
      (.ok (JsonVal.arr [JsonVal.obj
        [(("timestamp"), JsonVal.str ("2020-01-01T00:00:00")),
         (("sensordatavalues"), JsonVal.arr [JsonVal.obj
           [(("value_type"), JsonVal.str ("P1")),
            (("value"), JsonVal.str ("1.5"))]]),
         (("location"), JsonVal.obj
           [(("longitude"), JsonVal.str ("9.1")),
            (("latitude"), JsonVal.str ("48.7"))])]]))).1.values (JsonVal.str ("P9")) =
      dictLookup [(JsonVal.str ("P9"), some 7)] (JsonVal.str ("P9")) :=
  get_data_preserves_absent_key
    { sensor_id := 9, data := none,
      values := [(JsonVal.str ("P9"), some 7)], meta := {} }
    (JsonVal.arr [JsonVal.obj
      [(("timestamp"), JsonVal.str ("2020-01-01T00:00:00")),
       (("sensordatavalues"), JsonVal.arr [JsonVal.obj
         [(("value_type"), JsonVal.str ("P1")),
          (("value"), JsonVal.str ("1.5"))]]),
       (("location"), JsonVal.obj
         [(("longitude"), JsonVal.str ("9.1")),
          (("latitude"), JsonVal.str ("48.7"))])]])
    (JsonVal.str ("P9")) (by decide) (by decide) (by decide)
